import Mathlib

set_option maxHeartbeats 1000000
set_option maxRecDepth 8000

/-!
Shallow embedding of the dotFun bootstrap lexer
(`src/bootstrap/lexer/token.rs` and `src/bootstrap/lexer/lexer.rs`).

The source buffer is modelled as a list of bytes (`List Nat`, each entry the
value of one byte of the Rust `String`); the `i64` line/column counters are
modelled as `Int` (their values stay far from the 2^63 overflow boundary on
the inputs considered, so no wrap-around modelling is needed); the Rust
`Result<T, String>` is `Except String`; `Vec<Token>` is `List Token`.
-/

/-- `TokenType` from `token.rs`, all variants in source order. -/
inductive TokenType where
  | Eof
  | Identifier
  | NumberLiteral
  | StringLiteral
  | Class
  | Interface
  | Import
  | Package
  | Enum
  | Struct
  | Protected
  | Private
  | Override
  | This
  | New
  | Super
  | Constructor
  | Data
  | Typeof
  | Annotation
  | If
  | Else
  | Elif
  | While
  | For
  | Loop
  | Break
  | Continue
  | Async
  | Await
  | Function
  | Return
  | True
  | False
  | Null
  | Mut
  | Val
  | And
  | Or
  | Not
  | Is
  | In
  | Of
  | Try
  | Catch
  | Finally
  | Throw
  | Switch
  | Case
  | Default
  | Plus
  | Minus
  | Star
  | Slash
  | Percent
  | AndAnd
  | OrOr
  | NotBang
  | NotEqual
  | EqualEqual
  | Colon
  | Greater
  | Less
  | GreaterEqual
  | LessEqual
  | MinusMinus
  | PlusPlus
  | Dollar
  | BangBang
  | Equal
  | LeftParen
  | RightParen
  | LeftBrace
  | RightBrace
  | LeftBracket
  | RightBracket
  | Arrow
  | FatArrow
  | ColonColon
  | Question
  | Ellipsis
  | BitAnd
  | BitOr
  | BitXor
  | ShiftLeft
  | ShiftRight
  | AT
  | Comma
  | Dot
  | Semicolon
deriving DecidableEq

/-- `Token` from `token.rs`: kind, lexeme (the exact byte span), line, column. -/
structure Token where
  token_type : TokenType
  lexeme : List Nat
  line : Int
  column : Int
deriving DecidableEq

/-- The `Lexer` struct from `lexer.rs`: source buffer plus cursor state and
the internally buffered token vector. -/
structure Lexer where
  source : List Nat
  start : Nat
  current : Nat
  line : Int
  column : Int
  tokens : List Token
deriving DecidableEq

/-- `Lexer::new`. -/
def Lexer.new (source : List Nat) : Lexer :=
  { source := source, start := 0, current := 0, line := 1, column := 1, tokens := [] }

/-- `Lexer::is_at_end`: `self.current >= self.source.len()`. -/
def Lexer.is_at_end (l : Lexer) : Bool :=
  l.current ≥ l.source.length

/-- `Lexer::advance`: returns the byte at `current` (0 past end) and bumps
`current` and `column`. -/
def Lexer.advance (l : Lexer) : Nat × Lexer :=
  if l.is_at_end then (0, l)
  else (l.source.getD l.current 0,
    { l with current := l.current + 1, column := l.column + 1 })

/-- `Lexer::match_char`: consumes one byte only if it equals `expected`. -/
def Lexer.match_char (l : Lexer) (expected : Nat) : Bool × Lexer :=
  if l.is_at_end then (false, l)
  else if l.source.getD l.current 0 ≠ expected then (false, l)
  else (true, { l with current := l.current + 1, column := l.column + 1 })

/-- `Lexer::peek`: the byte at `current` without consuming, 0 past end. -/
def Lexer.peek (l : Lexer) : Nat :=
  if l.is_at_end then 0 else l.source.getD l.current 0

/-- `Lexer::peek_next`: the byte at `current + 1` without consuming, 0 past end. -/
def Lexer.peek_next (l : Lexer) : Nat :=
  if l.current + 1 ≥ l.source.length then 0 else l.source.getD (l.current + 1) 0

/-- The Rust slice `&self.source[a..b]` on the byte buffer. -/
def extractBytes (s : List Nat) (a b : Nat) : List Nat :=
  (s.drop a).take (b - a)

/-- `Lexer::add_token`: pushes a token for the current `[start, current)` span,
stamped with the current `line` and `column`. -/
def Lexer.add_token (l : Lexer) (token_type : TokenType) : Except String Lexer :=
  Except.ok { l with tokens := l.tokens ++
    [{ token_type := token_type, lexeme := extractBytes l.source l.start l.current,
       line := l.line, column := l.column }] }

/-- `is_digit` from `lexer.rs`. -/
def is_digit (c : Nat) : Bool :=
  c ≥ 48 && c ≤ 57

/-- `is_alpha` from `lexer.rs`. -/
def is_alpha (c : Nat) : Bool :=
  (c ≥ 97 && c ≤ 122) || (c ≥ 65 && c ≤ 90) || c = 95

/-- `is_alpha_numeric` from `lexer.rs`. -/
def is_alpha_numeric (c : Nat) : Bool :=
  is_alpha c || is_digit c

/-- Byte values of an ASCII string, used to state the keyword table. -/
def asciiBytes (s : String) : List Nat :=
  s.toList.map Char.toNat

/-- `lookup_keyword` from `lexer.rs`: exact-text match against the reserved
words, in source order; anything else is `Identifier`. -/
def lookup_keyword (text : List Nat) : TokenType :=
  if text = asciiBytes "class" then TokenType.Class
  else if text = asciiBytes "interface" then TokenType.Interface
  else if text = asciiBytes "import" then TokenType.Import
  else if text = asciiBytes "package" then TokenType.Package
  else if text = asciiBytes "enum" then TokenType.Enum
  else if text = asciiBytes "struct" then TokenType.Struct
  else if text = asciiBytes "protected" then TokenType.Protected
  else if text = asciiBytes "private" then TokenType.Private
  else if text = asciiBytes "override" then TokenType.Override
  else if text = asciiBytes "this" then TokenType.This
  else if text = asciiBytes "new" then TokenType.New
  else if text = asciiBytes "super" then TokenType.Super
  else if text = asciiBytes "constructor" then TokenType.Constructor
  else if text = asciiBytes "data" then TokenType.Data
  else if text = asciiBytes "typeof" then TokenType.Typeof
  else if text = asciiBytes "annotation" then TokenType.Annotation
  else if text = asciiBytes "if" then TokenType.If
  else if text = asciiBytes "else" then TokenType.Else
  else if text = asciiBytes "elif" then TokenType.Elif
  else if text = asciiBytes "while" then TokenType.While
  else if text = asciiBytes "for" then TokenType.For
  else if text = asciiBytes "loop" then TokenType.Loop
  else if text = asciiBytes "break" then TokenType.Break
  else if text = asciiBytes "continue" then TokenType.Continue
  else if text = asciiBytes "async" then TokenType.Async
  else if text = asciiBytes "await" then TokenType.Await
  else if text = asciiBytes "fn" then TokenType.Function
  else if text = asciiBytes "return" then TokenType.Return
  else if text = asciiBytes "true" then TokenType.True
  else if text = asciiBytes "false" then TokenType.False
  else if text = asciiBytes "null" then TokenType.Null
  else if text = asciiBytes "mut" then TokenType.Mut
  else if text = asciiBytes "val" then TokenType.Val
  else if text = asciiBytes "and" then TokenType.And
  else if text = asciiBytes "or" then TokenType.Or
  else if text = asciiBytes "not" then TokenType.Not
  else if text = asciiBytes "is" then TokenType.Is
  else if text = asciiBytes "in" then TokenType.In
  else if text = asciiBytes "of" then TokenType.Of
  else TokenType.Identifier

/-! ### Cursor facts used by the termination arguments of the scanning loops -/

theorem Lexer.not_at_end_lt (l : Lexer) (h : ¬ l.is_at_end = true) :
    l.current < l.source.length := by
  simp [Lexer.is_at_end] at h; omega

theorem Lexer.advance_source (l : Lexer) : (l.advance).2.source = l.source := by
  unfold Lexer.advance; split <;> rfl

theorem Lexer.advance_start (l : Lexer) : (l.advance).2.start = l.start := by
  unfold Lexer.advance; split <;> rfl

theorem Lexer.advance_tokens (l : Lexer) : (l.advance).2.tokens = l.tokens := by
  unfold Lexer.advance; split <;> rfl

theorem Lexer.advance_current (l : Lexer) (h : ¬ l.is_at_end = true) :
    (l.advance).2.current = l.current + 1 := by
  simp [Lexer.advance, h]

theorem Lexer.advance_current_le (l : Lexer) : l.current ≤ (l.advance).2.current := by
  unfold Lexer.advance; split <;> simp

theorem Lexer.peek_ne_zero_not_at_end (l : Lexer) (h : l.peek ≠ 0) :
    ¬ l.is_at_end = true := by
  intro he; simp [Lexer.peek, he] at h

/-! ### The sub-scanners of `lexer.rs`.  Each `while` loop of the Rust source
becomes one recursive function; recursion is well founded because each
iteration consumes one byte (`advance` moves `current` forward whenever the
end has not been reached). -/

/-- The inlined loop of the line-comment arm of `Lexer::scan_tokens`:
`while !self.is_at_end() && self.peek() != b'\n' { self.advance(); }`. -/
def Lexer.line_comment_loop (l : Lexer) : Lexer :=
  if h : l.is_at_end = false ∧ l.peek ≠ 10 then
    Lexer.line_comment_loop (l.advance).2
  else l
termination_by l.source.length - l.current
decreasing_by
  have h1 : ¬ l.is_at_end = true := by simp [h.1]
  rw [Lexer.advance_current _ h1, Lexer.advance_source]
  have := Lexer.not_at_end_lt l h1
  omega

/-- `Lexer::string`: consume until a closing `"` byte (34); a newline inside
bumps `line` and resets `column` to 0; end of input is an error. -/
def Lexer.string (l : Lexer) : Except String Lexer :=
  if h : l.is_at_end then
    Except.error ("Unterminated string literal at line " ++ toString l.line)
  else if l.peek = 34 then
    (l.advance).2.add_token TokenType.StringLiteral
  else if l.peek = 10 then
    Lexer.string ({ l with line := l.line + 1, column := 0 }.advance).2
  else
    Lexer.string (l.advance).2
termination_by l.source.length - l.current
decreasing_by
  · have h2 : ¬ ({ l with line := l.line + 1, column := 0 } : Lexer).is_at_end = true := h
    rw [Lexer.advance_current _ h2, Lexer.advance_source]
    have := Lexer.not_at_end_lt l h
    simp only []
    simp
    omega
  · rw [Lexer.advance_current _ h, Lexer.advance_source]
    have := Lexer.not_at_end_lt l h
    omega

/-- The `while is_digit(self.peek()) { self.advance(); }` loop of
`Lexer::number` (it appears twice in the Rust body). -/
def Lexer.digit_loop (l : Lexer) : Lexer :=
  if h : is_digit l.peek then Lexer.digit_loop (l.advance).2 else l
termination_by l.source.length - l.current
decreasing_by
  have hp : l.peek ≠ 0 := by intro h0; rw [h0] at h; simp [is_digit] at h
  have h1 := Lexer.peek_ne_zero_not_at_end l hp
  rw [Lexer.advance_current _ h1, Lexer.advance_source]
  have := Lexer.not_at_end_lt l h1
  omega

/-- `Lexer::number`: a maximal digit run, then optionally `.` followed by at
least one digit and a second maximal digit run. -/
def Lexer.number (l : Lexer) : Except String Lexer :=
  let l1 := l.digit_loop
  let l2 := if l1.peek = 46 ∧ is_digit l1.peek_next then ((l1.advance).2).digit_loop else l1
  l2.add_token TokenType.NumberLiteral

/-- The `while is_alpha_numeric(self.peek()) { self.advance(); }` loop of
`Lexer::identifier`. -/
def Lexer.ident_loop (l : Lexer) : Lexer :=
  if h : is_alpha_numeric l.peek then Lexer.ident_loop (l.advance).2 else l
termination_by l.source.length - l.current
decreasing_by
  have hp : l.peek ≠ 0 := by
    intro h0; rw [h0] at h; simp [is_alpha_numeric, is_alpha, is_digit] at h
  have h1 := Lexer.peek_ne_zero_not_at_end l hp
  rw [Lexer.advance_current _ h1, Lexer.advance_source]
  have := Lexer.not_at_end_lt l h1
  omega

/-- `Lexer::identifier`: maximal letters/digits/underscore run, then keyword
lookup on the `[start, current)` text. -/
def Lexer.identifier (l : Lexer) : Except String Lexer :=
  let l1 := l.ident_loop
  l1.add_token (lookup_keyword (extractBytes l1.source l1.start l1.current))

/-- `Lexer::block_comment`: consume until `*/`; a newline inside bumps `line`
and resets `column` to 1; end of input is an error. -/
def Lexer.block_comment (l : Lexer) : Except String Lexer :=
  if h : l.is_at_end then
    Except.error ("Unterminated block comment at line " ++ toString l.line)
  else if l.peek = 42 ∧ l.peek_next = 47 then
    Except.ok (((l.advance).2.advance).2)
  else if l.peek = 10 then
    Lexer.block_comment ({ l with line := l.line + 1, column := 1 }.advance).2
  else
    Lexer.block_comment (l.advance).2
termination_by l.source.length - l.current
decreasing_by
  · have h2 : ¬ ({ l with line := l.line + 1, column := 1 } : Lexer).is_at_end = true := h
    rw [Lexer.advance_current _ h2, Lexer.advance_source]
    have := Lexer.not_at_end_lt l h
    simp
    omega
  · rw [Lexer.advance_current _ h, Lexer.advance_source]
    have := Lexer.not_at_end_lt l h
    omega

/-- `Lexer::scan_tokens`: consume one byte and dispatch, in the order of the
Rust `match` arms.  Byte values: 32 space, 13 CR, 9 tab, 10 LF, 47 slash,
42 star, 34 double quote, 39 single quote, 43 plus, 45 minus, 62 greater,
37 percent, 61 equals, 33 bang, 60 less, 38 ampersand, 124 pipe, 58 colon,
46 dot, 63 question, 44 comma, 59 semicolon, 40 41 parens, 123 125 braces,
91 93 brackets, 36 dollar, 64 at. -/
def Lexer.scan_tokens (l0 : Lexer) : Except String Lexer :=
  let a := l0.advance
  let c := a.1
  let l := a.2
  if c = 32 ∨ c = 13 ∨ c = 9 then Except.ok l
  else if c = 10 then Except.ok { l with line := l.line + 1, column := 1 }
  else if c = 47 then
    let m1 := l.match_char 47
    if m1.1 then Except.ok (m1.2.line_comment_loop)
    else
      let m2 := m1.2.match_char 42
      if m2.1 then m2.2.block_comment
      else m2.2.add_token TokenType.Slash
  else if c = 34 ∨ c = 39 then l.string
  else if c = 43 then
    let m := l.match_char 43
    if m.1 then m.2.add_token TokenType.PlusPlus else m.2.add_token TokenType.Plus
  else if c = 45 then
    let m1 := l.match_char 45
    if m1.1 then m1.2.add_token TokenType.MinusMinus
    else
      let m2 := m1.2.match_char 62
      if m2.1 then m2.2.add_token TokenType.Arrow else m2.2.add_token TokenType.Minus
  else if c = 42 then l.add_token TokenType.Star
  else if c = 37 then l.add_token TokenType.Percent
  else if c = 61 then
    let m := l.match_char 61
    if m.1 then m.2.add_token TokenType.EqualEqual else m.2.add_token TokenType.Equal
  else if c = 33 then
    let m1 := l.match_char 61
    if m1.1 then m1.2.add_token TokenType.NotEqual
    else
      let m2 := m1.2.match_char 33
      if m2.1 then m2.2.add_token TokenType.BangBang else m2.2.add_token TokenType.NotBang
  else if c = 62 then
    let m1 := l.match_char 61
    if m1.1 then m1.2.add_token TokenType.GreaterEqual
    else
      let m2 := m1.2.match_char 62
      if m2.1 then m2.2.add_token TokenType.ShiftRight else m2.2.add_token TokenType.Greater
  else if c = 60 then
    let m1 := l.match_char 61
    if m1.1 then m1.2.add_token TokenType.LessEqual
    else
      let m2 := m1.2.match_char 60
      if m2.1 then m2.2.add_token TokenType.ShiftLeft else m2.2.add_token TokenType.Less
  else if c = 38 then
    let m := l.match_char 38
    if m.1 then m.2.add_token TokenType.AndAnd else m.2.add_token TokenType.BitAnd
  else if c = 124 then
    let m := l.match_char 124
    if m.1 then m.2.add_token TokenType.OrOr else m.2.add_token TokenType.BitOr
  else if c = 58 then
    let m := l.match_char 58
    if m.1 then m.2.add_token TokenType.ColonColon else m.2.add_token TokenType.Colon
  else if c = 46 then
    let m1 := l.match_char 46
    if m1.1 then
      let m2 := m1.2.match_char 46
      if m2.1 then m2.2.add_token TokenType.Ellipsis
      else Except.error ("Expected third \x27.\x27 for ellipsis at line " ++ toString m2.2.line)
    else m1.2.add_token TokenType.Dot
  else if c = 63 then l.add_token TokenType.Question
  else if c = 44 then l.add_token TokenType.Comma
  else if c = 59 then l.add_token TokenType.Semicolon
  else if c = 40 then l.add_token TokenType.LeftParen
  else if c = 41 then l.add_token TokenType.RightParen
  else if c = 123 then l.add_token TokenType.LeftBrace
  else if c = 125 then l.add_token TokenType.RightBrace
  else if c = 91 then l.add_token TokenType.LeftBracket
  else if c = 93 then l.add_token TokenType.RightBracket
  else if c = 36 then l.add_token TokenType.Dollar
  else if c = 64 then l.add_token TokenType.AT
  else if 48 ≤ c ∧ c ≤ 57 then l.number
  else if (97 ≤ c ∧ c ≤ 122) ∨ (65 ≤ c ∧ c ≤ 90) ∨ c = 95 then l.identifier
  else Except.error ("Unexpected character \x27" ++ (Char.ofNat c).toString ++
    "\x27 at line " ++ toString l.line ++ " column " ++ toString l.column)

/-! ### What one dispatch step does to the lexer state.

`CursorMono l m` says the step from `l` to `m` kept the source buffer, the
`start` mark and the token buffer, and did not move the cursor backwards.
`ScanPost l m` additionally allows exactly one token to have been pushed, and
records that its lexeme is the `[start, current)` span and that it is stamped
with the final line/column. -/

def CursorMono (l m : Lexer) : Prop :=
  m.source = l.source ∧ m.start = l.start ∧ m.tokens = l.tokens ∧ l.current ≤ m.current

theorem CursorMono.refl (l : Lexer) : CursorMono l l :=
  ⟨rfl, rfl, rfl, Nat.le_refl _⟩

theorem CursorMono.trans {a b c : Lexer} (h1 : CursorMono a b) (h2 : CursorMono b c) :
    CursorMono a c :=
  ⟨h2.1.trans h1.1, h2.2.1.trans h1.2.1, h2.2.2.1.trans h1.2.2.1,
    h1.2.2.2.trans h2.2.2.2⟩

theorem Lexer.mono_advance (l : Lexer) : CursorMono l (l.advance).2 := by
  unfold Lexer.advance; split
  · exact CursorMono.refl l
  · exact ⟨rfl, rfl, rfl, Nat.le_succ _⟩

theorem Lexer.mono_match_char (l : Lexer) (e : Nat) : CursorMono l (l.match_char e).2 := by
  unfold Lexer.match_char; split
  · exact CursorMono.refl l
  · split
    · exact CursorMono.refl l
    · exact ⟨rfl, rfl, rfl, Nat.le_succ _⟩

theorem Lexer.mono_line_comment_loop (l : Lexer) : CursorMono l l.line_comment_loop := by
  induction l using Lexer.line_comment_loop.induct with
  | case1 l h ih =>
    rw [Lexer.line_comment_loop, dif_pos h]
    exact CursorMono.trans (Lexer.mono_advance l) ih
  | case2 l h =>
    rw [Lexer.line_comment_loop, dif_neg h]
    exact CursorMono.refl l

theorem Lexer.mono_digit_loop (l : Lexer) : CursorMono l l.digit_loop := by
  induction l using Lexer.digit_loop.induct with
  | case1 l h ih =>
    rw [Lexer.digit_loop, dif_pos h]
    exact CursorMono.trans (Lexer.mono_advance l) ih
  | case2 l h =>
    rw [Lexer.digit_loop, dif_neg h]
    exact CursorMono.refl l

theorem Lexer.mono_ident_loop (l : Lexer) : CursorMono l l.ident_loop := by
  induction l using Lexer.ident_loop.induct with
  | case1 l h ih =>
    rw [Lexer.ident_loop, dif_pos h]
    exact CursorMono.trans (Lexer.mono_advance l) ih
  | case2 l h =>
    rw [Lexer.ident_loop, dif_neg h]
    exact CursorMono.refl l

def ScanPost (l m : Lexer) : Prop :=
  m.source = l.source ∧ m.start = l.start ∧ l.current ≤ m.current ∧
  (m.tokens = l.tokens ∨ ∃ t, m.tokens = l.tokens ++ [t] ∧
    t.lexeme = extractBytes l.source l.start m.current ∧
    t.token_type ≠ TokenType.Eof ∧ t.line = m.line ∧ t.column = m.column)

theorem ScanPost.of_mono {l m : Lexer} (h : CursorMono l m) : ScanPost l m :=
  ⟨h.1, h.2.1, h.2.2.2, Or.inl h.2.2.1⟩

theorem ScanPost.mono_trans {l m r : Lexer} (h1 : CursorMono l m) (h2 : ScanPost m r) :
    ScanPost l r := by
  obtain ⟨hs, hst, htk, hc⟩ := h1
  obtain ⟨a, b, c, d⟩ := h2
  refine ⟨a.trans hs, b.trans hst, hc.trans c, ?_⟩
  rcases d with d | ⟨t, ht, hl, he, h3, h4⟩
  · exact Or.inl (d.trans htk)
  · exact Or.inr ⟨t, by rw [ht, htk], by rw [hl, hs, hst], he, h3, h4⟩

theorem Lexer.add_token_post (l m : Lexer) (tt : TokenType) (htt : tt ≠ TokenType.Eof)
    (h : l.add_token tt = Except.ok m) : ScanPost l m := by
  rw [Lexer.add_token] at h
  injection h with h
  subst h
  exact ⟨rfl, rfl, Nat.le_refl _, Or.inr ⟨_, rfl, rfl, htt, rfl, rfl⟩⟩

theorem ite_ne_both {c : Prop} [Decidable c] {a b x : TokenType} (ha : a ≠ x)
    (hb : b ≠ x) : (if c then a else b) ≠ x := by
  split
  · exact ha
  · exact hb

theorem lookup_keyword_ne_eof (text : List Nat) : lookup_keyword text ≠ TokenType.Eof := by
  unfold lookup_keyword
  repeat' apply ite_ne_both
  all_goals decide

theorem Lexer.string_post (l r : Lexer) (h : l.string = Except.ok r) : ScanPost l r := by
  induction l using Lexer.string.induct with
  | case1 l hend => rw [Lexer.string] at h; simp [hend] at h
  | case2 l hend hq =>
    rw [Lexer.string] at h
    simp only [dif_neg hend, if_pos hq] at h
    exact ScanPost.mono_trans (Lexer.mono_advance l)
      (Lexer.add_token_post _ _ _ (by decide) h)
  | case3 l hend hq hn ih =>
    rw [Lexer.string] at h
    simp only [dif_neg hend, if_neg hq, if_pos hn] at h
    exact ScanPost.mono_trans
      (CursorMono.trans ⟨rfl, rfl, rfl, Nat.le_refl _⟩
        (Lexer.mono_advance { l with line := l.line + 1, column := 0 })) (ih h)
  | case4 l hend hq hn ih =>
    rw [Lexer.string] at h
    simp only [dif_neg hend, if_neg hq, if_neg hn] at h
    exact ScanPost.mono_trans (Lexer.mono_advance l) (ih h)

theorem Lexer.block_comment_mono (l r : Lexer) (h : l.block_comment = Except.ok r) :
    CursorMono l r := by
  induction l using Lexer.block_comment.induct with
  | case1 l hend => rw [Lexer.block_comment] at h; simp [hend] at h
  | case2 l hend hsp =>
    rw [Lexer.block_comment] at h
    simp only [dif_neg hend, if_pos hsp] at h
    injection h with h
    subst h
    exact CursorMono.trans (Lexer.mono_advance l) (Lexer.mono_advance _)
  | case3 l hend hsp hn ih =>
    rw [Lexer.block_comment] at h
    simp only [dif_neg hend, if_neg hsp, if_pos hn] at h
    exact CursorMono.trans
      (CursorMono.trans ⟨rfl, rfl, rfl, Nat.le_refl _⟩
        (Lexer.mono_advance { l with line := l.line + 1, column := 1 })) (ih h)
  | case4 l hend hsp hn ih =>
    rw [Lexer.block_comment] at h
    simp only [dif_neg hend, if_neg hsp, if_neg hn] at h
    exact CursorMono.trans (Lexer.mono_advance l) (ih h)

theorem Lexer.number_post (l r : Lexer) (h : l.number = Except.ok r) : ScanPost l r := by
  simp only [Lexer.number] at h
  split at h
  · exact ScanPost.mono_trans
      (CursorMono.trans (Lexer.mono_digit_loop l)
        (CursorMono.trans (Lexer.mono_advance _) (Lexer.mono_digit_loop _)))
      (Lexer.add_token_post _ _ _ (by decide) h)
  · exact ScanPost.mono_trans (Lexer.mono_digit_loop l)
      (Lexer.add_token_post _ _ _ (by decide) h)

theorem Lexer.identifier_post (l r : Lexer) (h : l.identifier = Except.ok r) :
    ScanPost l r := by
  simp only [Lexer.identifier] at h
  exact ScanPost.mono_trans (Lexer.mono_ident_loop l)
    (Lexer.add_token_post _ _ _ (lookup_keyword_ne_eof _) h)

theorem Lexer.post_step {l l1 r : Lexer} (h1 : l1.current = l.current + 1)
    (hs : l1.source = l.source) (hst : l1.start = l.start) (htk : l1.tokens = l.tokens)
    (hp : ScanPost l1 r) : l.current < r.current ∧ ScanPost l r := by
  obtain ⟨a, b, c, d⟩ := hp
  refine ⟨by omega, by rw [a, hs], by rw [b, hst], by omega, ?_⟩
  rcases d with d | ⟨t, ht, hl, he, h3, h4⟩
  · exact Or.inl (by rw [d, htk])
  · exact Or.inr ⟨t, by rw [ht, htk], by rw [hl, hs, hst], he, h3, h4⟩

/-- One successful call of `Lexer::scan_tokens` keeps the source and `start`,
moves the cursor strictly forward, and pushes at most one token; a pushed
token has the `[start, current)` span as its lexeme, is stamped with the final
line/column, and is never the end-of-input sentinel. -/
theorem Lexer.scan_spec (l r : Lexer) (h : l.scan_tokens = Except.ok r) :
    l.current < r.current ∧ ScanPost l r := by
  by_cases hend : l.is_at_end = true
  · exfalso
    have hadv : l.advance = (0, l) := by rw [Lexer.advance, if_pos hend]
    simp only [Lexer.scan_tokens, hadv] at h
    norm_num at h
    exact Except.noConfusion h
  · have hadv : l.advance =
        (l.source.getD l.current 0,
          { l with current := l.current + 1, column := l.column + 1 }) := by
      rw [Lexer.advance, if_neg hend]
    simp only [Lexer.scan_tokens, hadv] at h
    generalize hc : l.source.getD l.current 0 = c at h
    generalize hL : ({ l with current := l.current + 1, column := l.column + 1 } : Lexer) = l1 at h
    have e1 : l1.current = l.current + 1 := by rw [← hL]
    have e2 : l1.source = l.source := by rw [← hL]
    have e3 : l1.start = l.start := by rw [← hL]
    have e4 : l1.tokens = l.tokens := by rw [← hL]
    have H0 : ∀ (tt : TokenType) (rr : Lexer), tt ≠ TokenType.Eof →
        l1.add_token tt = Except.ok rr → l.current < rr.current ∧ ScanPost l rr :=
      fun tt rr htt hh => Lexer.post_step e1 e2 e3 e4 (Lexer.add_token_post _ _ _ htt hh)
    have H1 : ∀ (e : Nat) (tt : TokenType) (rr : Lexer), tt ≠ TokenType.Eof →
        (l1.match_char e).2.add_token tt = Except.ok rr →
        l.current < rr.current ∧ ScanPost l rr :=
      fun e tt rr htt hh => Lexer.post_step e1 e2 e3 e4
        (ScanPost.mono_trans (Lexer.mono_match_char _ _) (Lexer.add_token_post _ _ _ htt hh))
    have H2 : ∀ (e f : Nat) (tt : TokenType) (rr : Lexer), tt ≠ TokenType.Eof →
        ((l1.match_char e).2.match_char f).2.add_token tt = Except.ok rr →
        l.current < rr.current ∧ ScanPost l rr :=
      fun e f tt rr htt hh => Lexer.post_step e1 e2 e3 e4
        (ScanPost.mono_trans (CursorMono.trans (Lexer.mono_match_char _ _)
          (Lexer.mono_match_char _ _)) (Lexer.add_token_post _ _ _ htt hh))
    by_cases a1 : c = 32 ∨ c = 13 ∨ c = 9
    · rw [if_pos a1] at h
      injection h with h
      subst h
      exact Lexer.post_step e1 e2 e3 e4 (ScanPost.of_mono (CursorMono.refl _))
    rw [if_neg a1] at h
    by_cases a2 : c = 10
    · rw [if_pos a2] at h
      injection h with h
      subst h
      exact Lexer.post_step e1 e2 e3 e4
        (ScanPost.of_mono ⟨e2.symm, e3.symm, e4.symm, Nat.le_of_eq e1⟩)
    rw [if_neg a2] at h
    by_cases a3 : c = 47
    · rw [if_pos a3] at h
      by_cases b1 : (l1.match_char 47).1 = true
      · rw [if_pos b1] at h
        injection h with h
        subst h
        exact Lexer.post_step e1 e2 e3 e4 (ScanPost.of_mono
          (CursorMono.trans (Lexer.mono_match_char _ _) (Lexer.mono_line_comment_loop _)))
      rw [if_neg b1] at h
      by_cases b2 : ((l1.match_char 47).2.match_char 42).1 = true
      · rw [if_pos b2] at h
        exact Lexer.post_step e1 e2 e3 e4 (ScanPost.mono_trans
          (CursorMono.trans (Lexer.mono_match_char _ _) (Lexer.mono_match_char _ _))
          (ScanPost.of_mono (Lexer.block_comment_mono _ _ h)))
      rw [if_neg b2] at h
      exact H2 _ _ _ _ (by decide) h
    rw [if_neg a3] at h
    by_cases a4 : c = 34 ∨ c = 39
    · rw [if_pos a4] at h
      exact Lexer.post_step e1 e2 e3 e4 (Lexer.string_post _ _ h)
    rw [if_neg a4] at h
    by_cases a5 : c = 43
    · rw [if_pos a5] at h
      by_cases b : (l1.match_char 43).1 = true
      · rw [if_pos b] at h
        exact H1 _ _ _ (by decide) h
      rw [if_neg b] at h
      exact H1 _ _ _ (by decide) h
    rw [if_neg a5] at h
    by_cases a6 : c = 45
    · rw [if_pos a6] at h
      by_cases b1 : (l1.match_char 45).1 = true
      · rw [if_pos b1] at h
        exact H1 _ _ _ (by decide) h
      rw [if_neg b1] at h
      by_cases b2 : ((l1.match_char 45).2.match_char 62).1 = true
      · rw [if_pos b2] at h
        exact H2 _ _ _ _ (by decide) h
      rw [if_neg b2] at h
      exact H2 _ _ _ _ (by decide) h
    rw [if_neg a6] at h
    by_cases a7 : c = 42
    · rw [if_pos a7] at h
      exact H0 _ _ (by decide) h
    rw [if_neg a7] at h
    by_cases a8 : c = 37
    · rw [if_pos a8] at h
      exact H0 _ _ (by decide) h
    rw [if_neg a8] at h
    by_cases a9 : c = 61
    · rw [if_pos a9] at h
      by_cases b : (l1.match_char 61).1 = true
      · rw [if_pos b] at h
        exact H1 _ _ _ (by decide) h
      rw [if_neg b] at h
      exact H1 _ _ _ (by decide) h
    rw [if_neg a9] at h
    by_cases a10 : c = 33
    · rw [if_pos a10] at h
      by_cases b1 : (l1.match_char 61).1 = true
      · rw [if_pos b1] at h
        exact H1 _ _ _ (by decide) h
      rw [if_neg b1] at h
      by_cases b2 : ((l1.match_char 61).2.match_char 33).1 = true
      · rw [if_pos b2] at h
        exact H2 _ _ _ _ (by decide) h
      rw [if_neg b2] at h
      exact H2 _ _ _ _ (by decide) h
    rw [if_neg a10] at h
    by_cases a11 : c = 62
    · rw [if_pos a11] at h
      by_cases b1 : (l1.match_char 61).1 = true
      · rw [if_pos b1] at h
        exact H1 _ _ _ (by decide) h
      rw [if_neg b1] at h
      by_cases b2 : ((l1.match_char 61).2.match_char 62).1 = true
      · rw [if_pos b2] at h
        exact H2 _ _ _ _ (by decide) h
      rw [if_neg b2] at h
      exact H2 _ _ _ _ (by decide) h
    rw [if_neg a11] at h
    by_cases a12 : c = 60
    · rw [if_pos a12] at h
      by_cases b1 : (l1.match_char 61).1 = true
      · rw [if_pos b1] at h
        exact H1 _ _ _ (by decide) h
      rw [if_neg b1] at h
      by_cases b2 : ((l1.match_char 61).2.match_char 60).1 = true
      · rw [if_pos b2] at h
        exact H2 _ _ _ _ (by decide) h
      rw [if_neg b2] at h
      exact H2 _ _ _ _ (by decide) h
    rw [if_neg a12] at h
    by_cases a13 : c = 38
    · rw [if_pos a13] at h
      by_cases b : (l1.match_char 38).1 = true
      · rw [if_pos b] at h
        exact H1 _ _ _ (by decide) h
      rw [if_neg b] at h
      exact H1 _ _ _ (by decide) h
    rw [if_neg a13] at h
    by_cases a14 : c = 124
    · rw [if_pos a14] at h
      by_cases b : (l1.match_char 124).1 = true
      · rw [if_pos b] at h
        exact H1 _ _ _ (by decide) h
      rw [if_neg b] at h
      exact H1 _ _ _ (by decide) h
    rw [if_neg a14] at h
    by_cases a15 : c = 58
    · rw [if_pos a15] at h
      by_cases b : (l1.match_char 58).1 = true
      · rw [if_pos b] at h
        exact H1 _ _ _ (by decide) h
      rw [if_neg b] at h
      exact H1 _ _ _ (by decide) h
    rw [if_neg a15] at h
    by_cases a16 : c = 46
    · rw [if_pos a16] at h
      by_cases b1 : (l1.match_char 46).1 = true
      · rw [if_pos b1] at h
        by_cases b2 : ((l1.match_char 46).2.match_char 46).1 = true
        · rw [if_pos b2] at h
          exact H2 _ _ _ _ (by decide) h
        rw [if_neg b2] at h
        exact Except.noConfusion h
      rw [if_neg b1] at h
      exact H1 _ _ _ (by decide) h
    rw [if_neg a16] at h
    by_cases a17 : c = 63
    · rw [if_pos a17] at h
      exact H0 _ _ (by decide) h
    rw [if_neg a17] at h
    by_cases a18 : c = 44
    · rw [if_pos a18] at h
      exact H0 _ _ (by decide) h
    rw [if_neg a18] at h
    by_cases a19 : c = 59
    · rw [if_pos a19] at h
      exact H0 _ _ (by decide) h
    rw [if_neg a19] at h
    by_cases a20 : c = 40
    · rw [if_pos a20] at h
      exact H0 _ _ (by decide) h
    rw [if_neg a20] at h
    by_cases a21 : c = 41
    · rw [if_pos a21] at h
      exact H0 _ _ (by decide) h
    rw [if_neg a21] at h
    by_cases a22 : c = 123
    · rw [if_pos a22] at h
      exact H0 _ _ (by decide) h
    rw [if_neg a22] at h
    by_cases a23 : c = 125
    · rw [if_pos a23] at h
      exact H0 _ _ (by decide) h
    rw [if_neg a23] at h
    by_cases a24 : c = 91
    · rw [if_pos a24] at h
      exact H0 _ _ (by decide) h
    rw [if_neg a24] at h
    by_cases a25 : c = 93
    · rw [if_pos a25] at h
      exact H0 _ _ (by decide) h
    rw [if_neg a25] at h
    by_cases a26 : c = 36
    · rw [if_pos a26] at h
      exact H0 _ _ (by decide) h
    rw [if_neg a26] at h
    by_cases a27 : c = 64
    · rw [if_pos a27] at h
      exact H0 _ _ (by decide) h
    rw [if_neg a27] at h
    by_cases a28 : 48 ≤ c ∧ c ≤ 57
    · rw [if_pos a28] at h
      exact Lexer.post_step e1 e2 e3 e4 (Lexer.number_post _ _ h)
    rw [if_neg a28] at h
    by_cases a29 : (97 ≤ c ∧ c ≤ 122) ∨ (65 ≤ c ∧ c ≤ 90) ∨ c = 95
    · rw [if_pos a29] at h
      exact Lexer.post_step e1 e2 e3 e4 (Lexer.identifier_post _ _ h)
    rw [if_neg a29] at h
    exact Except.noConfusion h

/-- The scan loop of `Lexer::lex`: while input remains, set `start := current`
and run one `scan_tokens` dispatch; stop at end of input, abort on the first
error.  Terminates because each successful step moves `current` strictly
forward (`Lexer.scan_spec`). -/
def Lexer.lexLoop (l : Lexer) : Except String Lexer :=
  if hend : l.is_at_end then Except.ok l
  else
    match hs : ({ l with start := l.current } : Lexer).scan_tokens with
    | Except.error e => Except.error e
    | Except.ok l1 => Lexer.lexLoop l1
termination_by l.source.length - l.current
decreasing_by
  have hp := Lexer.scan_spec _ _ hs
  have hlt := Lexer.not_at_end_lt l hend
  have hsrc : l1.source = l.source := hp.2.1
  have hcur : l.current < l1.current := hp.1
  rw [hsrc]
  omega

/-- `Lexer::lex`: run the scan loop, then push the single `Eof` token stamped
with the final line and column. -/
def Lexer.lex (l : Lexer) : Except String (List Token) :=
  match l.lexLoop with
  | Except.error e => Except.error e
  | Except.ok lf => Except.ok (lf.tokens ++
      [{ token_type := TokenType.Eof, lexeme := [], line := lf.line, column := lf.column }])

/-- `Lexer::new(source).lex()`: the whole pipeline on a byte buffer. -/
def lexBytes (src : List Nat) : Except String (List Token) :=
  (Lexer.new src).lex

/-- Instrumented replay of the scan loop of `Lexer::lex`: it calls the same
`Lexer::scan_tokens` steps, and records, in order, the byte span each loop
iteration consumed, tagged `true` when that iteration emitted a token and
`false` when the span was skipped (whitespace, newline, line comment, block
comment).  Used to state the coverage invariant. -/
def Lexer.lexChunks (l : Lexer) : Except String (List (Bool × List Nat)) :=
  if hend : l.is_at_end then Except.ok []
  else
    match hs : ({ l with start := l.current } : Lexer).scan_tokens with
    | Except.error e => Except.error e
    | Except.ok l1 =>
      match l1.lexChunks with
      | Except.error e => Except.error e
      | Except.ok cs => Except.ok ((decide (l.tokens.length < l1.tokens.length),
          extractBytes l.source l.current l1.current) :: cs)
termination_by l.source.length - l.current
decreasing_by
  have hp := Lexer.scan_spec _ _ hs
  have hlt := Lexer.not_at_end_lt l hend
  have hsrc : l1.source = l.source := hp.2.1
  have hcur : l.current < l1.current := hp.1
  rw [hsrc]
  omega

/-! ### Unfolding equations for the loop -/

theorem Lexer.lexLoop_at_end (l : Lexer) (h : l.is_at_end = true) :
    l.lexLoop = Except.ok l := by
  rw [Lexer.lexLoop, dif_pos h]

theorem Lexer.lexLoop_step_err (l : Lexer) (e : String) (h : ¬ l.is_at_end = true)
    (hs : ({ l with start := l.current } : Lexer).scan_tokens = Except.error e) :
    l.lexLoop = Except.error e := by
  rw [Lexer.lexLoop, dif_neg h]
  split
  · rename_i e2 heq
    rw [hs] at heq
    injection heq with heq
    rw [heq]
  · rename_i l1 heq
    rw [hs] at heq
    exact Except.noConfusion heq

theorem Lexer.lexLoop_step_ok (l l1 : Lexer) (h : ¬ l.is_at_end = true)
    (hs : ({ l with start := l.current } : Lexer).scan_tokens = Except.ok l1) :
    l.lexLoop = l1.lexLoop := by
  rw [Lexer.lexLoop, dif_neg h]
  split
  · rename_i e heq
    rw [hs] at heq
    exact Except.noConfusion heq
  · rename_i l2 heq
    rw [hs] at heq
    injection heq with heq
    rw [heq]

theorem Lexer.lexChunks_at_end (l : Lexer) (h : l.is_at_end = true) :
    l.lexChunks = Except.ok [] := by
  rw [Lexer.lexChunks, dif_pos h]

theorem Lexer.lexChunks_step_ok (l l1 : Lexer) (h : ¬ l.is_at_end = true)
    (hs : ({ l with start := l.current } : Lexer).scan_tokens = Except.ok l1) :
    l.lexChunks = (match l1.lexChunks with
      | Except.error e => Except.error e
      | Except.ok cs => Except.ok ((decide (l.tokens.length < l1.tokens.length),
          extractBytes l.source l.current l1.current) :: cs)) := by
  rw [Lexer.lexChunks, dif_neg h]
  split
  · rename_i e heq
    rw [hs] at heq
    exact Except.noConfusion heq
  · rename_i l2 heq
    rw [hs] at heq
    injection heq with heq
    rw [heq]

theorem Lexer.lex_err (l : Lexer) (e : String) (h : l.lexLoop = Except.error e) :
    l.lex = Except.error e := by
  rw [Lexer.lex, h]

theorem Lexer.lex_ok (l lf : Lexer) (h : l.lexLoop = Except.ok lf) :
    l.lex = Except.ok (lf.tokens ++
      [{ token_type := TokenType.Eof, lexeme := [], line := lf.line,
         column := lf.column }]) := by
  rw [Lexer.lex, h]

theorem Lexer.lexChunks_step_err (l : Lexer) (e : String) (h : ¬ l.is_at_end = true)
    (hs : ({ l with start := l.current } : Lexer).scan_tokens = Except.error e) :
    l.lexChunks = Except.error e := by
  rw [Lexer.lexChunks, dif_neg h]
  split
  · rename_i e2 heq
    rw [hs] at heq
    injection heq with heq
    rw [heq]
  · rename_i l2 heq
    rw [hs] at heq
    exact Except.noConfusion heq

/-! ### The coverage decomposition -/

theorem extractBytes_append_drop (s : List Nat) (a b : Nat) (hab : a ≤ b) :
    extractBytes s a b ++ s.drop b = s.drop a := by
  unfold extractBytes
  have h1 : (s.drop a).drop (b - a) = s.drop b := by
    rw [List.drop_drop]
    congr 1
    omega
  rw [← h1, List.take_append_drop]

/-- A successful run of the scan loop only appends tokens, and none of the
appended tokens is the end-of-input sentinel. -/
theorem Lexer.lexLoop_tokens (l lf : Lexer) (h : l.lexLoop = Except.ok lf) :
    ∃ suf, lf.tokens = l.tokens ++ suf ∧ ∀ t ∈ suf, t.token_type ≠ TokenType.Eof := by
  induction l using Lexer.lexLoop.induct with
  | case1 l hend =>
    rw [Lexer.lexLoop_at_end l hend] at h
    injection h with h
    subst h
    exact ⟨[], by simp, by simp⟩
  | case2 l hend e hs =>
    rw [Lexer.lexLoop_step_err l e hend hs] at h
    exact Except.noConfusion h
  | case3 l hend l1 hs ih =>
    rw [Lexer.lexLoop_step_ok l l1 hend hs] at h
    obtain ⟨suf1, hsuf1, hall1⟩ := ih h
    have hp := (Lexer.scan_spec _ _ hs).2
    rcases hp.2.2.2 with heq | ⟨t, ht, hlx, hne, _, _⟩
    · have heq2 : l1.tokens = l.tokens := heq
      exact ⟨suf1, by rw [hsuf1, heq2], hall1⟩
    · have ht2 : l1.tokens = l.tokens ++ [t] := ht
      refine ⟨t :: suf1, ?_, ?_⟩
      · rw [hsuf1, ht2]
        simp
      · intro x hx
        rcases List.mem_cons.mp hx with hx | hx
        · rw [hx]
          exact hne
        · exact hall1 x hx

theorem flatten_cons_bytes (a : List Nat) (xs : List (List Nat)) :
    (a :: xs).flatten = a ++ xs.flatten := rfl

/-- The spans recorded by `lexChunks`, concatenated in order, are exactly the
unread part of the source buffer. -/
theorem Lexer.lexChunks_join (l : Lexer) (cs : List (Bool × List Nat))
    (h : l.lexChunks = Except.ok cs) :
    (cs.map Prod.snd).flatten = l.source.drop l.current := by
  induction l using Lexer.lexChunks.induct generalizing cs with
  | case1 l hend =>
    rw [Lexer.lexChunks_at_end l hend] at h
    injection h with h
    subst h
    simp [Lexer.is_at_end] at hend
    simp [List.drop_eq_nil_of_le hend]
  | case2 l hend e hs =>
    rw [Lexer.lexChunks_step_err l e hend hs] at h
    exact Except.noConfusion h
  | case3 l hend l1 hs e hinner ih =>
    rw [Lexer.lexChunks_step_ok l l1 hend hs, hinner] at h
    exact Except.noConfusion h
  | case4 l hend l1 hs cs1 hinner ih =>
    rw [Lexer.lexChunks_step_ok l l1 hend hs, hinner] at h
    injection h with h
    subst h
    have hp := Lexer.scan_spec _ _ hs
    have hsrc : l1.source = l.source := hp.2.1
    have hcur : l.current < l1.current := hp.1
    rw [List.map_cons, flatten_cons_bytes, ih cs1 hinner, hsrc]
    exact extractBytes_append_drop l.source l.current l1.current (Nat.le_of_lt hcur)

/-- When the scan loop succeeds, the chunk replay succeeds too, and the spans
of the token-tagged chunks are, in order, exactly the lexemes of the tokens
the loop appended. -/
theorem Lexer.lexLoop_chunks (l lf : Lexer) (hl : l.lexLoop = Except.ok lf) :
    ∃ cs, l.lexChunks = Except.ok cs ∧
      cs.filterMap (fun c => if c.1 then some c.2 else none) =
        (lf.tokens.drop l.tokens.length).map Token.lexeme := by
  induction l using Lexer.lexLoop.induct with
  | case1 l hend =>
    rw [Lexer.lexLoop_at_end l hend] at hl
    injection hl with hl
    subst hl
    exact ⟨[], Lexer.lexChunks_at_end l hend, by simp [List.drop_length]⟩
  | case2 l hend e hs =>
    rw [Lexer.lexLoop_step_err l e hend hs] at hl
    exact Except.noConfusion hl
  | case3 l hend l1 hs ih =>
    rw [Lexer.lexLoop_step_ok l l1 hend hs] at hl
    obtain ⟨cs1, hc1, htk1⟩ := ih hl
    have hp := (Lexer.scan_spec _ _ hs).2
    obtain ⟨suf1, hsuf1, _⟩ := Lexer.lexLoop_tokens l1 lf hl
    rcases hp.2.2.2 with heq | ⟨t, ht, hlx, hne, _, _⟩
    · have heq2 : l1.tokens = l.tokens := heq
      refine ⟨(false, extractBytes l.source l.current l1.current) :: cs1, ?_, ?_⟩
      · rw [Lexer.lexChunks_step_ok l l1 hend hs, hc1]
        have hlen : ¬ l.tokens.length < l1.tokens.length := by rw [heq2]; simp
        simp [hlen]
      · have hred : ((false, extractBytes l.source l.current l1.current) ::
            cs1).filterMap (fun c => if c.1 then some c.2 else none) =
            cs1.filterMap (fun c => if c.1 then some c.2 else none) := by simp
        have hlen2 : l1.tokens.length = l.tokens.length := by rw [heq2]
        rw [hred, htk1, hlen2]
    · have ht2 : l1.tokens = l.tokens ++ [t] := ht
      have hlx2 : t.lexeme = extractBytes l.source l.current l1.current := hlx
      refine ⟨(true, extractBytes l.source l.current l1.current) :: cs1, ?_, ?_⟩
      · rw [Lexer.lexChunks_step_ok l l1 hend hs, hc1]
        have hlen : l.tokens.length < l1.tokens.length := by rw [ht2]; simp
        simp [hlen]
      · have e5 : lf.tokens = (l.tokens ++ [t]) ++ suf1 := by rw [hsuf1, ht2]
        have e6 : lf.tokens.drop l.tokens.length = t :: suf1 := by
          rw [e5, List.append_assoc, List.drop_left]
          exact List.singleton_append
        have e7 : lf.tokens.drop l1.tokens.length = suf1 := by
          have hl1 : l1.tokens.length = (l.tokens ++ [t]).length := by rw [ht2]
          rw [hl1, e5, List.drop_left]
        have hred : ((true, extractBytes l.source l.current l1.current) ::
            cs1).filterMap (fun c => if c.1 then some c.2 else none) =
            extractBytes l.source l.current l1.current ::
              cs1.filterMap (fun c => if c.1 then some c.2 else none) := by simp
        rw [hred, htk1, e7, e6, List.map_cons, hlx2]

/-! ### The claims -/

/-- C1: for every source string on which `lex` succeeds, concatenating in
source order the spans consumed by the scan loop (the lexeme spans of the
emitted non-sentinel tokens, and the spans skipped as whitespace, newlines and
comments) reconstructs the original source exactly: the recorded chunk spans
flatten to the source byte-for-byte, and the token-tagged chunks are, in
order, exactly the lexemes of the emitted tokens other than the final
end-of-input sentinel. -/
theorem C1_coverage (src : List Nat) (toks : List Token)
    (h : lexBytes src = Except.ok toks) :
    ∃ cs, (Lexer.new src).lexChunks = Except.ok cs ∧
      (cs.map Prod.snd).flatten = src ∧
      cs.filterMap (fun c => if c.1 then some c.2 else none) =
        toks.dropLast.map Token.lexeme := by
  unfold lexBytes at h
  rcases hll : (Lexer.new src).lexLoop with e | lf
  · rw [Lexer.lex_err _ _ hll] at h
    exact Except.noConfusion h
  · rw [Lexer.lex_ok _ _ hll] at h
    injection h with h
    subst h
    obtain ⟨cs, hcs, htk⟩ := Lexer.lexLoop_chunks _ _ hll
    refine ⟨cs, hcs, ?_, ?_⟩
    · have hj := Lexer.lexChunks_join _ _ hcs
      simpa [Lexer.new] using hj
    · rw [htk]
      simp [Lexer.new]

/-- Witness for C1 on the source `"a //b"`. -/
theorem C1_coverage_witness :
    ∃ cs, (Lexer.new [97, 32, 47, 47, 98]).lexChunks = Except.ok cs ∧
      (cs.map Prod.snd).flatten = [97, 32, 47, 47, 98] ∧
      cs.filterMap (fun c => if c.1 then some c.2 else none) =
        ([{ token_type := TokenType.Identifier, lexeme := [97], line := 1, column := 2 },
          { token_type := TokenType.Eof, lexeme := [], line := 1,
            column := 6 }] : List Token).dropLast.map Token.lexeme :=
  C1_coverage [97, 32, 47, 47, 98] _ (by
    simp [lexBytes, Lexer.lex, Lexer.lexLoop, Lexer.scan_tokens, Lexer.new, Lexer.advance,
      Lexer.match_char, Lexer.is_at_end, Lexer.peek, Lexer.peek_next, Lexer.add_token,
      extractBytes, Lexer.number, Lexer.identifier, Lexer.string, Lexer.block_comment,
      Lexer.line_comment_loop, Lexer.digit_loop, Lexer.ident_loop, lookup_keyword,
      is_digit, is_alpha, is_alpha_numeric, asciiBytes, List.getD])

/-- C2: on success the returned sequence is the buffered tokens followed by
exactly one end-of-input token; no token follows it and no earlier token is
an end-of-input token. -/
theorem C2_eof_terminal (src : List Nat) (toks : List Token)
    (h : lexBytes src = Except.ok toks) :
    ∃ ts t, toks = ts ++ [t] ∧ t.token_type = TokenType.Eof ∧
      ∀ x ∈ ts, x.token_type ≠ TokenType.Eof := by
  unfold lexBytes at h
  rcases hll : (Lexer.new src).lexLoop with e | lf
  · rw [Lexer.lex_err _ _ hll] at h
    exact Except.noConfusion h
  · rw [Lexer.lex_ok _ _ hll] at h
    injection h with h
    subst h
    obtain ⟨suf, hsuf, hall⟩ := Lexer.lexLoop_tokens _ _ hll
    refine ⟨lf.tokens, _, rfl, rfl, ?_⟩
    intro x hx
    have hnil : lf.tokens = [] ++ suf := hsuf
    rw [List.nil_append] at hnil
    exact hall x (hnil ▸ hx)

/-- Witness for C2 on the source `"+"`. -/
theorem C2_eof_terminal_witness :
    ∃ ts t,
      ([{ token_type := TokenType.Plus, lexeme := [43], line := 1, column := 2 },
        { token_type := TokenType.Eof, lexeme := [], line := 1, column := 2 }] :
          List Token) = ts ++ [t] ∧ t.token_type = TokenType.Eof ∧
      ∀ x ∈ ts, x.token_type ≠ TokenType.Eof :=
  C2_eof_terminal [43] _ (by
    simp [lexBytes, Lexer.lex, Lexer.lexLoop, Lexer.scan_tokens, Lexer.new, Lexer.advance,
      Lexer.match_char, Lexer.is_at_end, Lexer.peek, Lexer.peek_next, Lexer.add_token,
      extractBytes, Lexer.number, Lexer.identifier, Lexer.string, Lexer.block_comment,
      Lexer.line_comment_loop, Lexer.digit_loop, Lexer.ident_loop, lookup_keyword,
      is_digit, is_alpha, is_alpha_numeric, asciiBytes, List.getD])

/-- C3: maximal munch via one level of lookahead: `">>"` lexes to a single
shift-right token (not two greater-than tokens), `"..."` to a single ellipsis
token, and `".."` (no third dot) aborts with the malformed-ellipsis error
instead of producing two dot tokens. -/
theorem C3_maximal_munch :
    lexBytes [62, 62] = Except.ok
      [{ token_type := TokenType.ShiftRight, lexeme := [62, 62], line := 1, column := 3 },
       { token_type := TokenType.Eof, lexeme := [], line := 1, column := 3 }] ∧
    lexBytes [46, 46, 46] = Except.ok
      [{ token_type := TokenType.Ellipsis, lexeme := [46, 46, 46], line := 1, column := 4 },
       { token_type := TokenType.Eof, lexeme := [], line := 1, column := 4 }] ∧
    lexBytes [46, 46] =
      Except.error "Expected third \x27.\x27 for ellipsis at line 1" := by
  refine ⟨?_, ?_, ?_⟩ <;>
    (simp [lexBytes, Lexer.lex, Lexer.lexLoop, Lexer.scan_tokens, Lexer.new, Lexer.advance,
      Lexer.match_char, Lexer.is_at_end, Lexer.peek, Lexer.peek_next, Lexer.add_token,
      extractBytes, Lexer.number, Lexer.identifier, Lexer.string, Lexer.block_comment,
      Lexer.line_comment_loop, Lexer.digit_loop, Lexer.ident_loop, lookup_keyword,
      is_digit, is_alpha, is_alpha_numeric, asciiBytes, List.getD]
     <;> decide)

/-- C4: every lexical error aborts the whole `lex` call: an error from the
scan loop is returned as is by `lex` (the buffered token list is discarded),
an error from a dispatch step is returned as is by the loop, and on the
concrete source `"a .."` the caller gets only the error even though the
identifier token for `a` had already been buffered. -/
theorem C4_error_aborts :
    (∀ (l : Lexer) (e : String), l.lexLoop = Except.error e → l.lex = Except.error e) ∧
    (∀ (l : Lexer) (e : String), ¬ l.is_at_end = true →
      ({ l with start := l.current } : Lexer).scan_tokens = Except.error e →
      l.lexLoop = Except.error e) ∧
    lexBytes [97, 32, 46, 46] =
      Except.error "Expected third \x27.\x27 for ellipsis at line 1" := by
  refine ⟨Lexer.lex_err, fun l e h hs => Lexer.lexLoop_step_err l e h hs, ?_⟩
  simp [lexBytes, Lexer.lex, Lexer.lexLoop, Lexer.scan_tokens, Lexer.new, Lexer.advance,
    Lexer.match_char, Lexer.is_at_end, Lexer.peek, Lexer.peek_next, Lexer.add_token,
    extractBytes, Lexer.number, Lexer.identifier, Lexer.string, Lexer.block_comment,
    Lexer.line_comment_loop, Lexer.digit_loop, Lexer.ident_loop, lookup_keyword,
    is_digit, is_alpha, is_alpha_numeric, asciiBytes, List.getD]
  decide

/-- Witness for C4 on the source `".."`. -/
theorem C4_error_aborts_witness :
    (Lexer.new [46, 46]).lexLoop =
      Except.error "Expected third \x27.\x27 for ellipsis at line 1" ∧
    (Lexer.new [46, 46]).lex =
      Except.error "Expected third \x27.\x27 for ellipsis at line 1" := by
  have hs : ({ Lexer.new [46, 46] with start := (Lexer.new [46, 46]).current } :
      Lexer).scan_tokens = Except.error "Expected third \x27.\x27 for ellipsis at line 1" := by
    simp [Lexer.scan_tokens, Lexer.new, Lexer.advance, Lexer.match_char, Lexer.is_at_end,
      Lexer.peek, Lexer.peek_next, Lexer.add_token, extractBytes, List.getD]
    decide
  have hloop := C4_error_aborts.2.1 (Lexer.new [46, 46]) _ (by decide) hs
  exact ⟨hloop, C4_error_aborts.1 _ _ hloop⟩

/-- C5: a string scan is entered by a double quote (34) or a single quote
(39), both dispatching to the same `Lexer::string` scan; the scan consumes
bytes until a closing double quote and interprets no escape sequences (the
raw bytes, backslash included, become the lexeme); a string opened with a
single quote is closed by a `"` and never by a `'`, and reaching end of input
first yields the unterminated-string error naming the line. -/
theorem C5_string_scan :
    (∀ l : Lexer, ¬ l.is_at_end = true →
      (l.source.getD l.current 0 = 34 ∨ l.source.getD l.current 0 = 39) →
      l.scan_tokens = Lexer.string (l.advance).2) ∧
    lexBytes [39, 97, 34] = Except.ok
      [{ token_type := TokenType.StringLiteral, lexeme := [39, 97, 34], line := 1,
         column := 4 },
       { token_type := TokenType.Eof, lexeme := [], line := 1, column := 4 }] ∧
    lexBytes [39, 97, 39] = Except.error "Unterminated string literal at line 1" ∧
    lexBytes [34, 92, 110, 34] = Except.ok
      [{ token_type := TokenType.StringLiteral, lexeme := [34, 92, 110, 34], line := 1,
         column := 5 },
       { token_type := TokenType.Eof, lexeme := [], line := 1, column := 5 }] := by
  refine ⟨?_, ?_, ?_, ?_⟩
  · intro l hend hq
    have hadv : l.advance =
        (l.source.getD l.current 0,
          { l with current := l.current + 1, column := l.column + 1 }) := by
      rw [Lexer.advance, if_neg hend]
    rcases hq with hq | hq <;>
      (simp only [Lexer.scan_tokens, hadv, hq] <;> norm_num)
  · have hstr : ({ Lexer.new [39, 97, 34] with
        start := (Lexer.new [39, 97, 34]).current } : Lexer).scan_tokens =
        Except.ok { source := [39, 97, 34], start := 0, current := 3, line := 1, column := 4, tokens := [{ token_type := TokenType.StringLiteral, lexeme := [39, 97, 34], line := 1, column := 4 }] } := by
      simp [Lexer.scan_tokens, Lexer.new, Lexer.advance, Lexer.match_char, Lexer.is_at_end,
        Lexer.peek, Lexer.peek_next, Lexer.add_token, extractBytes, Lexer.string, List.getD]
    have hloop := (Lexer.lexLoop_step_ok _ _ (by decide) hstr).trans
      (Lexer.lexLoop_at_end _ (by decide))
    unfold lexBytes
    rw [Lexer.lex_ok _ _ hloop]
    rfl
  · have hstr : ({ Lexer.new [39, 97, 39] with
        start := (Lexer.new [39, 97, 39]).current } : Lexer).scan_tokens =
        Except.error "Unterminated string literal at line 1" := by
      simp [Lexer.scan_tokens, Lexer.new, Lexer.advance, Lexer.match_char, Lexer.is_at_end,
        Lexer.peek, Lexer.peek_next, Lexer.add_token, extractBytes, Lexer.string, List.getD]
      decide
    unfold lexBytes
    rw [Lexer.lex_err _ _ (Lexer.lexLoop_step_err _ _ (by decide) hstr)]
  · have hstr : ({ Lexer.new [34, 92, 110, 34] with
        start := (Lexer.new [34, 92, 110, 34]).current } : Lexer).scan_tokens =
        Except.ok { source := [34, 92, 110, 34], start := 0, current := 4, line := 1, column := 5, tokens := [{ token_type := TokenType.StringLiteral, lexeme := [34, 92, 110, 34], line := 1, column := 5 }] } := by
      simp [Lexer.scan_tokens, Lexer.new, Lexer.advance, Lexer.match_char, Lexer.is_at_end,
        Lexer.peek, Lexer.peek_next, Lexer.add_token, extractBytes, Lexer.string, List.getD]
    have hloop := (Lexer.lexLoop_step_ok _ _ (by decide) hstr).trans
      (Lexer.lexLoop_at_end _ (by decide))
    unfold lexBytes
    rw [Lexer.lex_ok _ _ hloop]
    rfl

/-- Witness for C5 on the one-byte source `"\x27"`. -/
theorem C5_string_scan_witness :
    (Lexer.new [39]).scan_tokens = Lexer.string ((Lexer.new [39]).advance).2 :=
  C5_string_scan.1 _ (by decide) (Or.inr (by decide))

/-- C6: newline handling is asymmetric between the two sub-scanners: a
newline byte inside a block comment bumps `line` and resets `column` to 1,
while a newline byte inside a string literal bumps `line` and resets `column`
to 0; observably, lexing the bytes of a quote, a newline and a quote ends at
line 2 column 2, while lexing a block comment containing one newline ends at
line 2 column 4. -/
theorem C6_newline_asymmetry :
    (∀ l : Lexer, ¬ l.is_at_end = true → l.peek = 10 →
      Lexer.string l =
        Lexer.string (({ l with line := l.line + 1, column := 0 } : Lexer).advance).2) ∧
    (∀ l : Lexer, ¬ l.is_at_end = true → l.peek = 10 →
      Lexer.block_comment l =
        Lexer.block_comment
          (({ l with line := l.line + 1, column := 1 } : Lexer).advance).2) ∧
    lexBytes [34, 10, 34] = Except.ok
      [{ token_type := TokenType.StringLiteral, lexeme := [34, 10, 34], line := 2,
         column := 2 },
       { token_type := TokenType.Eof, lexeme := [], line := 2, column := 2 }] ∧
    lexBytes [47, 42, 10, 42, 47] = Except.ok
      [{ token_type := TokenType.Eof, lexeme := [], line := 2, column := 4 }] := by
  refine ⟨?_, ?_, ?_, ?_⟩
  · intro l hend hp
    rw [Lexer.string, dif_neg hend, if_neg (by rw [hp]; decide), if_pos hp]
  · intro l hend hp
    rw [Lexer.block_comment, dif_neg hend, if_neg (by simp [hp]), if_pos hp]
  · have hstr : ({ Lexer.new [34, 10, 34] with
        start := (Lexer.new [34, 10, 34]).current } : Lexer).scan_tokens =
        Except.ok { source := [34, 10, 34], start := 0, current := 3, line := 2, column := 2, tokens := [{ token_type := TokenType.StringLiteral, lexeme := [34, 10, 34], line := 2, column := 2 }] } := by
      simp [Lexer.scan_tokens, Lexer.new, Lexer.advance, Lexer.match_char, Lexer.is_at_end,
        Lexer.peek, Lexer.peek_next, Lexer.add_token, extractBytes, Lexer.string, List.getD]
    have hloop := (Lexer.lexLoop_step_ok _ _ (by decide) hstr).trans
      (Lexer.lexLoop_at_end _ (by decide))
    unfold lexBytes
    rw [Lexer.lex_ok _ _ hloop]
    rfl
  · have hbc : ({ Lexer.new [47, 42, 10, 42, 47] with
        start := (Lexer.new [47, 42, 10, 42, 47]).current } : Lexer).scan_tokens =
        Except.ok { source := [47, 42, 10, 42, 47], start := 0, current := 5, line := 2, column := 4, tokens := [] } := by
      simp [Lexer.scan_tokens, Lexer.new, Lexer.advance, Lexer.match_char, Lexer.is_at_end,
        Lexer.peek, Lexer.peek_next, Lexer.add_token, extractBytes, Lexer.block_comment,
        List.getD]
    have hloop := (Lexer.lexLoop_step_ok _ _ (by decide) hbc).trans
      (Lexer.lexLoop_at_end _ (by decide))
    unfold lexBytes
    rw [Lexer.lex_ok _ _ hloop]
    rfl

/-- Witness for C6 on the one-byte source holding a newline. -/
theorem C6_newline_asymmetry_witness :
    Lexer.string (Lexer.new [10]) = Lexer.string (({ Lexer.new [10] with line := (Lexer.new [10]).line + 1, column := 0 } : Lexer).advance).2 ∧
    Lexer.block_comment (Lexer.new [10]) = Lexer.block_comment (({ Lexer.new [10] with line := (Lexer.new [10]).line + 1, column := 1 } : Lexer).advance).2 :=
  ⟨C6_newline_asymmetry.1 _ (by decide) (by decide),
   C6_newline_asymmetry.2.1 _ (by decide) (by decide)⟩

/-- C7: every token pushed by a dispatch step is stamped with the cursor
column as it stands after the lexeme has been fully consumed (the final
column of the step), not the column at which the lexeme starts; concretely,
the identifier `ab` starting at column 1 is stamped with column 3. -/
theorem C7_column_stamp :
    (∀ (l r : Lexer) (t : Token), l.scan_tokens = Except.ok r →
      r.tokens = l.tokens ++ [t] → t.column = r.column) ∧
    lexBytes [97, 98] = Except.ok
      [{ token_type := TokenType.Identifier, lexeme := [97, 98], line := 1, column := 3 },
       { token_type := TokenType.Eof, lexeme := [], line := 1, column := 3 }] := by
  constructor
  · intro l r t hs htk
    obtain ⟨-, hp⟩ := Lexer.scan_spec l r hs
    rcases hp.2.2.2 with heq | ⟨t2, ht2, -, -, -, hcol⟩
    · rw [heq] at htk
      have hlen := congrArg List.length htk
      simp at hlen
    · rw [ht2] at htk
      have h12 : t2 = t := by simpa using htk
      rw [← h12]
      exact hcol
  · simp [lexBytes, Lexer.lex, Lexer.lexLoop, Lexer.scan_tokens, Lexer.new, Lexer.advance,
      Lexer.match_char, Lexer.is_at_end, Lexer.peek, Lexer.peek_next, Lexer.add_token,
      extractBytes, Lexer.number, Lexer.identifier, Lexer.string, Lexer.block_comment,
      Lexer.line_comment_loop, Lexer.digit_loop, Lexer.ident_loop, lookup_keyword,
      is_digit, is_alpha, is_alpha_numeric, asciiBytes, List.getD]

/-- Witness for C7: the dispatch step on the one-byte source `"+"` pushes a
token stamped with the final column. -/
theorem C7_column_stamp_witness :
    ({ token_type := TokenType.Plus, lexeme := [43], line := 1, column := 2 } : Token).column =
      ({ source := [43], start := 0, current := 1, line := 1, column := 2, tokens := [{ token_type := TokenType.Plus, lexeme := [43], line := 1, column := 2 }] } : Lexer).column :=
  C7_column_stamp.1 (Lexer.new [43]) _ _
    (by simp [Lexer.scan_tokens, Lexer.new, Lexer.advance, Lexer.match_char, Lexer.is_at_end,
      Lexer.peek, Lexer.peek_next, Lexer.add_token, extractBytes, List.getD])
    (by simp [Lexer.new])

theorem ite_eq_kw_iff {c : Prop} [Decidable c] {x b : TokenType} (hb : b ≠ x) :
    ((if c then x else b) = x) ↔ c := by
  constructor
  · intro h
    by_contra hc
    rw [if_neg hc] at h
    exact hb h
  · intro h
    rw [if_pos h]

/-- The 39 reserved words of `lookup_keyword`, as byte strings, in source
order. -/
def keywordBytes : List (List Nat) :=
  [asciiBytes "class", asciiBytes "interface", asciiBytes "import", asciiBytes "package",
   asciiBytes "enum", asciiBytes "struct", asciiBytes "protected", asciiBytes "private",
   asciiBytes "override", asciiBytes "this", asciiBytes "new", asciiBytes "super",
   asciiBytes "constructor", asciiBytes "data", asciiBytes "typeof", asciiBytes "annotation",
   asciiBytes "if", asciiBytes "else", asciiBytes "elif", asciiBytes "while",
   asciiBytes "for", asciiBytes "loop", asciiBytes "break", asciiBytes "continue",
   asciiBytes "async", asciiBytes "await", asciiBytes "fn", asciiBytes "return",
   asciiBytes "true", asciiBytes "false", asciiBytes "null", asciiBytes "mut",
   asciiBytes "val", asciiBytes "and", asciiBytes "or", asciiBytes "not",
   asciiBytes "is", asciiBytes "in", asciiBytes "of"]

/-- C8: keyword resolution is a static, case-sensitive, exact-text lookup:
a lexeme is resolved to the class keyword exactly when its text is the byte
string `class`; any text outside the keyword table resolves to the generic
identifier kind; `class` lexes to the class-keyword token, `classify` to a
generic identifier, and the case variant `Class` resolves to the generic
identifier kind. -/
theorem C8_keyword_lookup :
    (∀ text : List Nat, lookup_keyword text = TokenType.Class ↔ text = asciiBytes "class") ∧
    (∀ text : List Nat, text ∉ keywordBytes → lookup_keyword text = TokenType.Identifier) ∧
    lexBytes (asciiBytes "class") = Except.ok
      [{ token_type := TokenType.Class, lexeme := asciiBytes "class", line := 1, column := 6 },
       { token_type := TokenType.Eof, lexeme := [], line := 1, column := 6 }] ∧
    lexBytes (asciiBytes "classify") = Except.ok
      [{ token_type := TokenType.Identifier, lexeme := asciiBytes "classify", line := 1,
         column := 9 },
       { token_type := TokenType.Eof, lexeme := [], line := 1, column := 9 }] ∧
    lookup_keyword (asciiBytes "Class") = TokenType.Identifier := by
  refine ⟨?_, ?_, ?_, ?_, ?_⟩
  · intro text
    unfold lookup_keyword
    apply ite_eq_kw_iff
    repeat' apply ite_ne_both
    all_goals decide
  · intro text hmem
    simp [keywordBytes] at hmem
    obtain ⟨h1, h2, h3, h4, h5, h6, h7, h8, h9, h10, h11, h12, h13, h14, h15, h16, h17,
      h18, h19, h20, h21, h22, h23, h24, h25, h26, h27, h28, h29, h30, h31, h32, h33,
      h34, h35, h36, h37, h38, h39⟩ := hmem
    unfold lookup_keyword
    rw [if_neg h1, if_neg h2, if_neg h3, if_neg h4, if_neg h5, if_neg h6, if_neg h7,
      if_neg h8, if_neg h9, if_neg h10, if_neg h11, if_neg h12, if_neg h13, if_neg h14,
      if_neg h15, if_neg h16, if_neg h17, if_neg h18, if_neg h19, if_neg h20, if_neg h21,
      if_neg h22, if_neg h23, if_neg h24, if_neg h25, if_neg h26, if_neg h27, if_neg h28,
      if_neg h29, if_neg h30, if_neg h31, if_neg h32, if_neg h33, if_neg h34, if_neg h35,
      if_neg h36, if_neg h37, if_neg h38, if_neg h39]
  · simp [lexBytes, Lexer.lex, Lexer.lexLoop, Lexer.scan_tokens, Lexer.new, Lexer.advance,
      Lexer.match_char, Lexer.is_at_end, Lexer.peek, Lexer.peek_next, Lexer.add_token,
      extractBytes, Lexer.number, Lexer.identifier, Lexer.string, Lexer.block_comment,
      Lexer.line_comment_loop, Lexer.digit_loop, Lexer.ident_loop, lookup_keyword,
      is_digit, is_alpha, is_alpha_numeric, asciiBytes, List.getD]
  · simp [lexBytes, Lexer.lex, Lexer.lexLoop, Lexer.scan_tokens, Lexer.new, Lexer.advance,
      Lexer.match_char, Lexer.is_at_end, Lexer.peek, Lexer.peek_next, Lexer.add_token,
      extractBytes, Lexer.number, Lexer.identifier, Lexer.string, Lexer.block_comment,
      Lexer.line_comment_loop, Lexer.digit_loop, Lexer.ident_loop, lookup_keyword,
      is_digit, is_alpha, is_alpha_numeric, asciiBytes, List.getD]
  · decide

/-- Witness for C8 on the non-keyword text `"x"` and the keyword text
`"class"`. -/
theorem C8_keyword_lookup_witness :
    lookup_keyword [120] = TokenType.Identifier ∧
    (lookup_keyword (asciiBytes "class") = TokenType.Class ↔
      asciiBytes "class" = asciiBytes "class") :=
  ⟨C8_keyword_lookup.2.1 [120] (by decide), C8_keyword_lookup.1 (asciiBytes "class")⟩

/-- C9: the scanner makes strict progress: every successful dispatch step
moves the cursor strictly forward over an unchanged source buffer (this is
the measure that makes every loop of the scanner finish), and on every finite
input `lex` runs to completion, returning a token sequence or an error. -/
theorem C9_termination :
    (∀ l r : Lexer, l.scan_tokens = Except.ok r →
      l.current < r.current ∧ r.source = l.source) ∧
    (∀ src : List Nat,
      (∃ toks, lexBytes src = Except.ok toks) ∨ ∃ e, lexBytes src = Except.error e) := by
  constructor
  · intro l r h
    exact ⟨(Lexer.scan_spec l r h).1, (Lexer.scan_spec l r h).2.1⟩
  · intro src
    cases h : lexBytes src with
    | error e => exact Or.inr ⟨e, rfl⟩
    | ok toks => exact Or.inl ⟨toks, rfl⟩

/-- Witness for C9: the dispatch step on the one-byte source `"+"` moves the
cursor from 0 to 1. -/
theorem C9_termination_witness :
    (Lexer.new [43]).current < ({ source := [43], start := 0, current := 1, line := 1, column := 2, tokens := [{ token_type := TokenType.Plus, lexeme := [43], line := 1, column := 2 }] } : Lexer).current ∧
    ({ source := [43], start := 0, current := 1, line := 1, column := 2, tokens := [{ token_type := TokenType.Plus, lexeme := [43], line := 1, column := 2 }] } : Lexer).source = (Lexer.new [43]).source :=
  C9_termination.1 (Lexer.new [43]) _
    (by simp [Lexer.scan_tokens, Lexer.new, Lexer.advance, Lexer.match_char, Lexer.is_at_end,
      Lexer.peek, Lexer.peek_next, Lexer.add_token, extractBytes, List.getD])

/-- C10: every token pushed by a dispatch step is stamped with the line
counter as it stands after the lexeme has been fully consumed; in particular
a string literal containing an embedded newline is stamped with the line of
its closing quote (line 2), not the line of its opening quote (line 1). -/
theorem C10_line_stamp :
    (∀ (l r : Lexer) (t : Token), l.scan_tokens = Except.ok r →
      r.tokens = l.tokens ++ [t] → t.line = r.line) ∧
    lexBytes [34, 97, 10, 98, 34] = Except.ok
      [{ token_type := TokenType.StringLiteral, lexeme := [34, 97, 10, 98, 34], line := 2,
         column := 3 },
       { token_type := TokenType.Eof, lexeme := [], line := 2, column := 3 }] := by
  constructor
  · intro l r t hs htk
    obtain ⟨-, hp⟩ := Lexer.scan_spec l r hs
    rcases hp.2.2.2 with heq | ⟨t2, ht2, -, -, hline, -⟩
    · rw [heq] at htk
      have hlen := congrArg List.length htk
      simp at hlen
    · rw [ht2] at htk
      have h12 : t2 = t := by simpa using htk
      rw [← h12]
      exact hline
  · have hstr : ({ Lexer.new [34, 97, 10, 98, 34] with
        start := (Lexer.new [34, 97, 10, 98, 34]).current } : Lexer).scan_tokens =
        Except.ok { source := [34, 97, 10, 98, 34], start := 0, current := 5, line := 2, column := 3, tokens := [{ token_type := TokenType.StringLiteral, lexeme := [34, 97, 10, 98, 34], line := 2, column := 3 }] } := by
      simp [Lexer.scan_tokens, Lexer.new, Lexer.advance, Lexer.match_char, Lexer.is_at_end,
        Lexer.peek, Lexer.peek_next, Lexer.add_token, extractBytes, Lexer.string, List.getD]
    have hloop := (Lexer.lexLoop_step_ok _ _ (by decide) hstr).trans
      (Lexer.lexLoop_at_end _ (by decide))
    unfold lexBytes
    rw [Lexer.lex_ok _ _ hloop]
    rfl

/-- Witness for C10: the dispatch step on the one-byte source `"+"` stamps
the pushed token with the final line counter. -/
theorem C10_line_stamp_witness :
    ({ token_type := TokenType.Plus, lexeme := [43], line := 1, column := 2 } : Token).line =
      ({ source := [43], start := 0, current := 1, line := 1, column := 2, tokens := [{ token_type := TokenType.Plus, lexeme := [43], line := 1, column := 2 }] } : Lexer).line :=
  C10_line_stamp.1 (Lexer.new [43]) _ _
    (by simp [Lexer.scan_tokens, Lexer.new, Lexer.advance, Lexer.match_char, Lexer.is_at_end,
      Lexer.peek, Lexer.peek_next, Lexer.add_token, extractBytes, List.getD])
    (by simp [Lexer.new])
